import Mathlib

/-!
# Verification of the community-platform backend (Internet_floks)

Shallow embedding of the request-validation / authorization pipeline of the
TypeScript repository: the error model (`ParametricError` / `NonParametricError`),
the session codec (`encryptSession` / `decryptSession`), the session resolver
(`currentUser`), the authorization gates (`isLoggedIn`, `isCommunityAdmin`,
`isCommunityModerator`), the resource operations (`addMember`, `createCommunity`,
`getAllRole`, `signupUser`, `signinUser`, `getMe`) and the declarative request
validator (`renameKeys` / `validateRequest`).

Datastore rows are association-free records, and the handful of ORM queries the
code performs (`findByPk`, `findOne`, `findAll`, `count`, `create`) are modelled
as list operations over an explicit `Store`.  Each handler is a function from the
store (and request data) to an `Except` of the raised error or the produced
response; the store is threaded explicitly where a handler writes.
-/

namespace Floks

/-! ## Error model (src/errors) -/

/-- One entry of a `ParametricError`: a field-scoped error `{param, message, code}`
(`IParametricError`). -/
structure FieldError where
  param : String
  message : String
  code : String
deriving Repr, DecidableEq

/-- One entry of a `NonParametricError`: a general error `{message, code}`
(`INonParametricError`). -/
structure GeneralError where
  message : String
  code : String
deriving Repr, DecidableEq

/-- The two `CustomError` subclasses (src/errors): `ParametricError` carries
field-scoped entries, `NonParametricError` carries general entries.  `queryError`
models a plain `Error` thrown below the handlers (by the query layer or by a
property access on `null`/`undefined`): it is not a `CustomError`, so the global
error handler serializes it as a bare message rather than a structured list. -/
inductive AppError where
  | parametric (errors : List FieldError)
  | nonParametric (errors : List GeneralError)
  | queryError (message : String)
deriving Repr, DecidableEq

/-- One serialized error entry as produced by `serializeErrors`: `ParametricError`
entries carry a `param` field, `NonParametricError` entries do not. -/
structure SerializedError where
  param : Option String
  message : String
  code : String
deriving Repr, DecidableEq

/-- `serializeErrors` of the two `CustomError` kinds: `ParametricError.serializeErrors`
emits `{param, message, code}`; `NonParametricError.serializeErrors` emits
`{message, code}` (no `param`).  A non-`CustomError` has no serialization (the
dispatcher sends a bare message); it serializes to `[]` here. -/
def serializeErrors : AppError → List SerializedError
  | .parametric errs => errs.map fun e => ⟨some e.param, e.message, e.code⟩
  | .nonParametric errs => errs.map fun e => ⟨none, e.message, e.code⟩
  | .queryError _ => []

/-! ## Identity codec (src/utils/rename-object-keys.ts, jwt part)

`jsonwebtoken` is an external collaborator assumed to satisfy the conventional
HMAC contract: `jwt.sign(payload, s)` yields a token that `jwt.verify(·, s)`
accepts exactly when verified with the same secret, recovering the payload;
any other string is rejected.  A token value is therefore modelled as either a
well-formed signed token (payload plus signing secret) or a malformed string. -/

/-- A bearer-token value: either produced by `jwt.sign` with some payload id and
secret, or an arbitrary non-token string (tampered / forged / malformed). -/
inductive Jwt where
  | signed (payloadId : String) (secret : String)
  | malformed (raw : String)
deriving Repr, DecidableEq

/-- The process-wide signing secret `JWT_SECRET` (environment-sourced constant). -/
def JWT_SECRET : String := "JWT_SECRET"

/-- `jwt.verify(token, secret)`: returns the payload id when the token is signed
with the same secret, fails otherwise. -/
def jwtVerify (token : Jwt) (secret : String) : Except Unit String :=
  match token with
  | .signed payloadId s => if s = secret then .ok payloadId else .error ()
  | .malformed _ => .error ()

/-- `encryptSession` (src/utils/rename-object-keys.ts): signs the payload `{id}`
with `JWT_SECRET`. -/
def encryptSession (payloadId : String) : Jwt :=
  .signed payloadId JWT_SECRET

/-- `decryptSession` (src/utils/rename-object-keys.ts): verifies the token with
`JWT_SECRET` and returns the payload's `id`; on any verification failure it
throws `ParametricError([{message: "User not found.", param: "user",
code: "RESOURCE_NOT_FOUND"}])`. -/
def decryptSession (token : Jwt) : Except AppError String :=
  match jwtVerify token JWT_SECRET with
  | .ok id => .ok id
  | .error _ =>
      .error (.parametric [⟨"user", "User not found.", "RESOURCE_NOT_FOUND"⟩])

/-! ## Session resolver (src/middlewares/is-community-admin.ts, `currentUser`) -/

/-- The payload attached to the request context: `req.currentUser = {id}`. -/
structure UserPayload where
  id : String
deriving Repr, DecidableEq

/-- `currentUser` middleware: when `req.session.jwt` is absent, calls `next()`
with no identity; when present, tries `decryptSession` inside `try/catch`,
attaching `{id}` on success and swallowing the error (leaving no identity) on
failure, then calls `next()`.  The result is the value of `req.currentUser`
after the middleware; it is always `.ok` (the middleware never forwards an
error). -/
def currentUser (sessionJwt : Option Jwt) : Except AppError (Option UserPayload) :=
  match sessionJwt with
  | none => .ok none
  | some token =>
      match decryptSession token with
      | .ok id => .ok (some ⟨id⟩)
      | .error _ => .ok none

/-! ## Data model (src/models) -/

/-- A `User` row: id (primary key), name, email, password hash, creation time. -/
structure UserRow where
  id : String
  name : String
  email : String
  password : String
  createdAt : String
deriving Repr, DecidableEq

/-- A `Role` row: id (primary key) and name. -/
structure RoleRow where
  id : String
  name : String
  createdAt : String
  updatedAt : String
deriving Repr, DecidableEq

/-- A `Community` row: id (primary key), name, slug, owning user reference. -/
structure CommunityRow where
  id : String
  name : String
  slug : String
  ownerId : String
  createdAt : String
  updatedAt : String
deriving Repr, DecidableEq

/-- A `Member` row: id (primary key) and references to a community, a user and a
role. -/
structure MemberRow where
  id : String
  communityId : String
  userId : String
  roleId : String
  createdAt : String
deriving Repr, DecidableEq

/-- The datastore state: the four tables, each a list of rows in insertion
order. -/
structure Store where
  users : List UserRow
  roles : List RoleRow
  communities : List CommunityRow
  members : List MemberRow
deriving Repr, DecidableEq

/-- `User.findByPk` / `User.findOne({where: {id}})`. -/
def findUser (st : Store) (id : String) : Option UserRow :=
  st.users.find? fun u => u.id = id

/-- `User.findOne({where: {email}})`. -/
def findUserByEmail (st : Store) (email : String) : Option UserRow :=
  st.users.find? fun u => u.email = email

/-- `Role.findByPk`. -/
def findRole (st : Store) (id : String) : Option RoleRow :=
  st.roles.find? fun r => r.id = id

/-- `Role.findOne({where: {name}})`. -/
def findRoleByName (st : Store) (name : String) : Option RoleRow :=
  st.roles.find? fun r => r.name = name

/-- `Community.findByPk`. -/
def findCommunity (st : Store) (id : String) : Option CommunityRow :=
  st.communities.find? fun c => c.id = id

/-- `Member.findOne({where: {userId, communityId, roleId}})`. -/
def findMemberTriple (st : Store) (userId communityId roleId : String) :
    Option MemberRow :=
  st.members.find? fun m =>
    m.userId = userId ∧ m.communityId = communityId ∧ m.roleId = roleId

/-- The number of `Member` rows matching a (user, community, role) triple. -/
def countMemberTriple (st : Store) (userId communityId roleId : String) : Nat :=
  (st.members.filter fun m =>
    m.userId = userId ∧ m.communityId = communityId ∧ m.roleId = roleId).length

/-- `comm.getOwner()`: resolves the `BelongsTo` association, i.e. the `User` row
whose id is the community's `ownerId` (or `null` when no such row exists). -/
def getOwner (st : Store) (comm : CommunityRow) : Option UserRow :=
  findUser st comm.ownerId

/-! ## Authorization gates (src/middlewares) -/

/-- `isLoggedIn` middleware: throws
`NonParametricError([{message, code: "NOT_ALLOWED_ACCESS"}])` when
`req.currentUser` is absent, else proceeds. -/
def isLoggedIn (caller : Option UserPayload) : Except AppError Unit :=
  match caller with
  | none =>
      .error (.nonParametric
        [⟨"You are not authorized to perform this action.", "NOT_ALLOWED_ACCESS"⟩])
  | some _ => .ok ()

/-- `isCommunityAdmin` middleware (src/middlewares/is-community-admin.ts): reads
the caller id from `req.currentUser` and the community id from `req.body`;
requires the caller's user row to exist (else `NOT_ALLOWED_ACCESS`), the
community row to exist (else field error `community` / `RESOURCE_NOT_FOUND`),
and the community owner's id to equal the caller id (else `NOT_ALLOWED_ACCESS`).
The owner is read through `commOwner!.id`: when the owner row is missing the
non-null assertion dereferences `null` and the resulting `TypeError` is passed
to `next(error)` as a plain (non-`CustomError`) error. -/
def isCommunityAdmin (st : Store) (callerId : String) (community : String) :
    Except AppError Unit := do
  match findUser st callerId with
  | none =>
      throw (.nonParametric
        [⟨"You are not authorized to perform this action.", "NOT_ALLOWED_ACCESS"⟩])
  | some _ =>
  match findCommunity st community with
  | none =>
      throw (.parametric [⟨"community", "Community not found.", "RESOURCE_NOT_FOUND"⟩])
  | some comm =>
  match getOwner st comm with
  | none => throw (.queryError "Cannot read properties of null (reading id)")
  | some commOwner =>
  if commOwner.id ≠ callerId then
    throw (.nonParametric
      [⟨"You are not authorized to perform this action.", "NOT_ALLOWED_ACCESS"⟩])
  else
    pure ()

/-- `Member.findOne({where: {userId, communityId, roleId}})` as issued by
`isCommunityModerator`, whose `communityId` operand is the JavaScript expression
`community.id` with `community` a string — i.e. `undefined`.  The query layer
rejects a `where` clause containing an `undefined` value (its documented
behaviour: "WHERE parameter has invalid undefined value"), throwing a plain
error. -/
def findMemberTripleJs (st : Store) (userId : String) (communityId : Option String)
    (roleId : String) : Except AppError (Option MemberRow) :=
  match communityId with
  | none => .error (.queryError "WHERE parameter communityId has invalid undefined value")
  | some cid => .ok (findMemberTriple st userId cid roleId)

/-- The JavaScript property access `community.id` where `community` is the string
taken from `req.body`: a property read on a string primitive yields `undefined`. -/
def jsStringIdField (_community : String) : Option String := none

/-- `isCommunityModerator` middleware (src/middlewares/is-community-admin.ts):
reads the caller id from `req.currentUser` and the community id from `req.body`;
requires the caller's user row and the community row to exist (else
`NOT_ALLOWED_ACCESS`), resolves the owner (`comm.getOwner()`), looks up the
"Community Moderator" role (dereferenced with `role!.id`, so a missing role row
throws a `TypeError`), then queries the membership with
`{userId: user.id, communityId: community.id, roleId: role!.id}` — where
`community` is the body string, so `community.id` is `undefined` — and finally
requires the caller to be the owner or the membership to be present. -/
def isCommunityModerator (st : Store) (callerId : String) (community : String) :
    Except AppError Unit := do
  match findUser st callerId with
  | none =>
      throw (.nonParametric
        [⟨"You are not authorized to perform this action.", "NOT_ALLOWED_ACCESS"⟩])
  | some user =>
  match findCommunity st community with
  | none =>
      throw (.nonParametric
        [⟨"You are not authorized to perform this action.", "NOT_ALLOWED_ACCESS"⟩])
  | some comm =>
  let commOwner := getOwner st comm
  match findRoleByName st "Community Moderator" with
  | none => throw (.queryError "Cannot read properties of null (reading id)")
  | some role => do
      let membership ← findMemberTripleJs st user.id (jsStringIdField community) role.id
      match commOwner with
      | none => throw (.queryError "Cannot read properties of null (reading id)")
      | some owner =>
        if owner.id ≠ callerId ∧ membership = none then
          throw (.nonParametric
            [⟨"You are not authorized to perform this action.", "NOT_ALLOWED_ACCESS"⟩])
        else
          pure ()

/-! ## Member resource operations (controllers, `addMember`) -/

/-- The JSON body of `POST /member` after `addMemberVal`/`validateRequest`: the
three fields `community`, `user`, `role`, each present and a string. -/
structure AddMemberBody where
  community : String
  user : String
  role : String
deriving Repr, DecidableEq

/-- The `content.data` payload of a successful `addMember` response. -/
structure MemberData where
  id : String
  community : String
  user : String
  role : String
  created_at : String
deriving Repr, DecidableEq

/-- A `res.status(s).json({status: true, content: {data}})` response of
`addMember`. -/
structure MemberResponse where
  httpStatus : Nat
  status : Bool
  data : MemberData
deriving Repr, DecidableEq

/-- `addMember` controller: requires the role row (else field error `role` /
`RESOURCE_NOT_FOUND`) and the user row (else field error `user` /
`RESOURCE_NOT_FOUND`) to exist, throws `NonParametricError` `RESOURCE_EXISTS`
when a `Member` row already matches the (user, community, role) triple, and
otherwise creates one `Member` row with a fresh Snowflake id (passed in as
`newId`; `now` is the ORM's default `createdAt`) and answers status 200 with its
data.  Returns the updated store along with the response. -/
def addMember (st : Store) (body : AddMemberBody) (newId now : String) :
    Except AppError (Store × MemberResponse) := do
  match findRole st body.role with
  | none => throw (.parametric [⟨"role", "Role not found.", "RESOURCE_NOT_FOUND"⟩])
  | some _ =>
  match findUser st body.user with
  | none => throw (.parametric [⟨"user", "User not found.", "RESOURCE_NOT_FOUND"⟩])
  | some _ =>
  match findMemberTriple st body.user body.community body.role with
  | some _ =>
      throw (.nonParametric
        [⟨"User is already added in the community.", "RESOURCE_EXISTS"⟩])
  | none =>
      let row : MemberRow :=
        ⟨newId, body.community, body.user, body.role, now⟩
      let st' : Store := { st with members := st.members ++ [row] }
      pure (st', ⟨200, true,
        ⟨row.id, row.communityId, row.userId, row.roleId, row.createdAt⟩⟩)

/-- The `POST /member` route (src/routes/user.ts): for a request whose body
passed `addMemberVal`/`validateRequest` (encoded by `AddMemberBody`), runs
`isLoggedIn`, then `isCommunityAdmin`, then `addMember`.  `caller` is the
identity the `currentUser` middleware attached (if any); `newId`/`now` are the
generated Snowflake id and the creation timestamp of the row `addMember` would
create. -/
def postMember (st : Store) (caller : Option UserPayload) (body : AddMemberBody)
    (newId now : String) : Except AppError (Store × MemberResponse) := do
  isLoggedIn caller
  match caller with
  | none => throw (.queryError "Cannot destructure property id of undefined")
  | some payload => do
      isCommunityAdmin st payload.id body.community
      addMember st body newId now

/-- The datastore state after a `POST /member` request: the store returned on
success, the untouched store when the pipeline raised (every write in the
pipeline happens after the last fallible step). -/
def postMemberStore (st : Store) (caller : Option UserPayload)
    (body : AddMemberBody) (newId now : String) : Store :=
  match postMember st caller body newId now with
  | .ok (st', _) => st'
  | .error _ => st

/-! ## Community creation and the slug derivation (src/controllers/community.ts) -/

/-- The character class of the regex `[\s\W-]` in `createCommunity`'s
`name.toLowerCase().replace(/[\s\W-]+/g, "-")`.  `\W` is `[^A-Za-z0-9_]`, which
already contains every `\s` character and `-`, so the class is exactly the
non-word characters: everything but ASCII letters, digits and underscore.
(JavaScript regexes without the `u` flag treat `\w` as ASCII-only.) -/
def jsNonWord (c : Char) : Bool :=
  ¬ (('a' ≤ c ∧ c ≤ 'z') ∨ ('A' ≤ c ∧ c ≤ 'Z') ∨ ('0' ≤ c ∧ c ≤ '9') ∨ c = '_')

/-- `String.replace(/class+/g, "-")` on a character list: each maximal run of
characters matching `p` becomes a single `'-'`.  `inRun` records whether the
previous character was part of a run. -/
def collapseRunsAux (p : Char → Bool) (inRun : Bool) : List Char → List Char
  | [] => []
  | c :: rest =>
      if p c then
        if inRun then collapseRunsAux p true rest
        else '-' :: collapseRunsAux p true rest
      else c :: collapseRunsAux p false rest

/-- Replace every maximal run of characters matching `p` by a single `'-'`. -/
def collapseRuns (p : Char → Bool) (s : List Char) : List Char :=
  collapseRunsAux p false s

/-- The slug `createCommunity` stores:
`name.toLowerCase().replace(/[\s\W-]+/g, "-")`. -/
def slugOf (name : List Char) : List Char :=
  collapseRuns jsNonWord (name.map Char.toLower)

/-- Modelled from the spec (§3): "derived slug (lowercased, non-alphanumeric
runs collapsed to a single separator)" — the name lowercased with every run of
non-alphanumeric characters replaced by a single separator `'-'`.  Stated for
comparison with the source's `slugOf`. -/
def specSlug (name : List Char) : List Char :=
  collapseRuns (fun c => ¬ (('a' ≤ c ∧ c ≤ 'z') ∨ ('A' ≤ c ∧ c ≤ 'Z') ∨
    ('0' ≤ c ∧ c ≤ '9'))) (name.map Char.toLower)

/-- No two consecutive `'-'` separators occur in the character list. -/
def noDoubleSep : List Char → Bool
  | c1 :: c2 :: rest => (!(c1 == '-' && c2 == '-')) && noDoubleSep (c2 :: rest)
  | _ => true

/-- The `content.data` payload of a successful `createCommunity` response. -/
structure CommunityData where
  id : String
  name : String
  slug : String
  owner : String
  created_at : String
  updated_at : String
deriving Repr, DecidableEq

/-- `createCommunity` controller: requires the caller's user row to exist (else
field error `user` / `RESOURCE_NOT_FOUND`), creates the community with id
`newId`, the slug derived from the name, and the caller as owner; finds or
creates the "Community Admin" role (fresh id `newRoleId` when created) and adds
an admin `Member` row (id `newMemberId`) for the caller; answers status 200 with
the community's data.  `name` is the body's `name` as a character list (the
request passed `createCommunityVal`, i.e. `name` is a string of length ≥ 2);
`now` stands for the ORM's default timestamps. -/
def createCommunity (st : Store) (callerId : String) (name : List Char)
    (newId newRoleId newMemberId now : String) :
    Except AppError (Store × CommunityData) := do
  match findUser st callerId with
  | none => throw (.parametric [⟨"user", "User not found.", "RESOURCE_NOT_FOUND"⟩])
  | some _ =>
      let community : CommunityRow :=
        ⟨newId, String.mk name, String.mk (slugOf name), callerId, now, now⟩
      let st1 : Store := { st with communities := st.communities ++ [community] }
      let (role, st2) : RoleRow × Store :=
        match findRoleByName st1 "Community Admin" with
        | some r => (r, st1)
        | none =>
            let r : RoleRow := ⟨newRoleId, "Community Admin", now, now⟩
            (r, { st1 with roles := st1.roles ++ [r] })
      let member : MemberRow := ⟨newMemberId, community.id, callerId, role.id, now⟩
      let st3 : Store := { st2 with members := st2.members ++ [member] }
      pure (st3, ⟨community.id, community.name, community.slug,
        community.ownerId, community.createdAt, community.updatedAt⟩)

/-! ## Role listing (src/controllers/auth.ts, `getAllRole`) -/

/-- The `page` request parameter as `Number(...)` sees it: absent
(`Number(undefined)` is `NaN`), non-numeric (`NaN` again), or a number
(modelled as an integer). -/
inductive PageParam where
  | absent
  | nonNumeric
  | num (n : Int)
deriving Repr, DecidableEq

/-- `let page = Number(req.body.page); if (!page) page = 1;` — `NaN` and `0` are
falsy, every other number keeps its value. -/
def resolvePage : PageParam → Int
  | .absent => 1
  | .nonNumeric => 1
  | .num n => if n = 0 then 1 else n

/-- The `content.meta` of a paginated listing. -/
structure PageMeta where
  total : Nat
  pages : Nat
  page : Int
deriving Repr, DecidableEq

/-- A `getAllRole` response: `meta` plus the `data` page of role rows. -/
structure RoleListResponse where
  httpStatus : Nat
  status : Bool
  meta : PageMeta
  data : List RoleRow
deriving Repr, DecidableEq

/-- `getAllRole` controller: resolves `page` (default 1 on absent/`NaN`/`0`),
fetches `Role.findAll({limit: 10, offset: page <= 1 ? 0 : (page-1)*10})`,
counts the table, and answers
`meta = {total, pages: Math.ceil(total/10), page: page <= 1 ? 1 : page}` with
the fetched rows. -/
def getAllRole (st : Store) (pageParam : PageParam) : RoleListResponse :=
  let page := resolvePage pageParam
  let offset : Nat := if page ≤ 1 then 0 else ((page - 1) * 10).toNat
  let roles := (st.roles.drop offset).take 10
  let total := st.roles.length
  ⟨200, true, ⟨total, (total + 9) / 10, if page ≤ 1 then 1 else page⟩, roles⟩

/-! ## Auth resource operations (src/controllers/auth.ts)

For the serialization claims the `content.data` object literal of each handler
is embedded as the ordered key/value list the source builds, so that the exact
set of serialized keys is part of the model. -/

/-- The `content.data` object literal shared by `signupUser`, `signinUser` and
`getMe`: `{id, name, email, created_at}` built from the user row. -/
def userDataJson (u : UserRow) : List (String × String) :=
  [("id", u.id), ("name", u.name), ("email", u.email), ("created_at", u.createdAt)]

/-- A success response carrying user data: HTTP status, `content.data` as the
serialized key/value list, and `content.meta.access_token` when the handler
issues a token. -/
structure UserResponse where
  httpStatus : Nat
  status : Bool
  data : List (String × String)
  accessToken : Option Jwt
deriving Repr, DecidableEq

/-- `signupUser` controller: rejects a taken email with field error `email` /
`RESOURCE_EXISTS`, otherwise creates the user row (id `newId`; the password is
stored hashed by the model's lifecycle hook — `hashed` is the stored hash),
issues a session token for the new id and answers status 200 with
`data = {id, name, email, created_at}` and `meta = {access_token}`. -/
def signupUser (st : Store) (name email password : String) (newId now hashed : String) :
    Except AppError (Store × UserResponse) := do
  match findUserByEmail st email with
  | some _ =>
      throw (.parametric
        [⟨"email", "User with this email address already exists.", "RESOURCE_EXISTS"⟩])
  | none =>
      let user : UserRow := ⟨newId, name, email, hashed, now⟩
      let st' : Store := { st with users := st.users ++ [user] }
      let _ := password
      pure (st', ⟨200, true, userDataJson user, some (encryptSession user.id)⟩)

/-- `bcrypt.compare` as an external collaborator with the conventional
contract: the comparison succeeds exactly when the stored value is the hash of
the plaintext.  The model carries the plaintext inside the mock hash. -/
def comparePasswords (plaintext stored : String) : Bool :=
  stored = "bcrypt$" ++ plaintext

/-- `signinUser` controller: looks the user up by email (else field error `user`
/ `RESOURCE_NOT_FOUND`), verifies the password (else field error `password` /
`INVALID_CREDENTIALS`), issues a token and answers status 200 with
`data = {id, name, email, created_at}` and `meta = {access_token}`. -/
def signinUser (st : Store) (email password : String) :
    Except AppError UserResponse := do
  match findUserByEmail st email with
  | none => throw (.parametric [⟨"user", "User not found.", "RESOURCE_NOT_FOUND"⟩])
  | some user =>
      if comparePasswords password user.password then
        pure ⟨200, true, userDataJson user, some (encryptSession user.id)⟩
      else
        throw (.parametric
          [⟨"password", "The credentials you provided are invalid.", "INVALID_CREDENTIALS"⟩])

/-- `getMe` controller: requires `req.currentUser.id` (else `NOT_SIGNEDIN`),
resolves the user row (else field error `user` / `RESOURCE_NOT_FOUND`) and
answers status 200 with `data = {id, name, email, created_at}` (no token
metadata). -/
def getMe (st : Store) (caller : Option UserPayload) :
    Except AppError UserResponse := do
  match caller with
  | none =>
      throw (.nonParametric [⟨"You need to sign in to proceed.", "NOT_SIGNEDIN"⟩])
  | some payload =>
  match findUser st payload.id with
  | none => throw (.parametric [⟨"user", "User not found.", "RESOURCE_NOT_FOUND"⟩])
  | some user => pure ⟨200, true, userDataJson user, none⟩

/-! ## Request validator (src/utils/rename-object-keys.ts `renameKeys`,
src/middlewares `validateRequest`)

A rule-engine validation error (`FieldValidationError`) is embedded as the
ordered key/value list of its own fields (e.g. `type`, `value`, `msg`, `path`,
`location`), so that `renameKeys`' iteration over the object's keys is the
iteration over the list. -/

/-- JavaScript property assignment `obj[k] = v` on an object embedded as an
ordered key/value list: an existing key keeps its position and gets the new
value, a fresh key is appended. -/
def setKey (obj : List (String × String)) (k v : String) : List (String × String) :=
  if obj.any (fun kv => kv.1 = k) then
    obj.map fun kv => if kv.1 = k then (k, v) else kv
  else
    obj ++ [(k, v)]

/-- The `keyMap` of `validateRequest`: `{msg: "message", path: "param"}`;
`keyMap[key] || key` falls back to the key itself. -/
def keyMapLookup (k : String) : String :=
  if k = "msg" then "message" else if k = "path" then "param" else k

/-- `renameKeys` (src/utils/rename-object-keys.ts): copies every property of the
object under its mapped name, then unconditionally sets `newObj.code =
"INVALID_INPUT"`. -/
def renameKeys (obj : List (String × String)) : List (String × String) :=
  setKey (obj.foldl (fun acc kv => setKey acc (keyMapLookup kv.1) kv.2) [])
    "code" "INVALID_INPUT"

/-- `err.msg` of a validation error embedded as a key/value list (`msg` is
always present on a `FieldValidationError`). -/
def msgOf (err : List (String × String)) : String :=
  match err.lookup "msg" with
  | some m => m
  | none => ""

/-- `String.prototype.toLowerCase()` as a per-character map. -/
def jsToLowerCase (s : String) : String :=
  String.mk (s.data.map Char.toLower)

/-- The error batch `validateRequest` throws when the rule engine reported
`errs`: the errors whose message is not the sentinel `"invalid value"`
(case-insensitively), each passed through `renameKeys`.  When the batch is
built (i.e. `errs` was non-empty), it is thrown as a `ParametricError`. -/
def validateRequestErrors (errs : List (List (String × String))) :
    List (List (String × String)) :=
  (errs.filter fun err => jsToLowerCase (msgOf err) ≠ "invalid value").map renameKeys

/-! ## Theorems -/

/-- C5: For every user id, encoding the payload `{id}` into a session token with
`encryptSession` and then decoding that token with `decryptSession` returns the
original id (decode is a left inverse of encode under the same process-wide
secret). -/
theorem decryptSession_encryptSession (id : String) :
    decryptSession (encryptSession id) = .ok id := by
  simp [decryptSession, encryptSession, jwtVerify]

/-- C3: The session resolver never rejects: with no token in the session
container it proceeds with no caller identity; with a token whose decode fails
it swallows the error and proceeds with no identity; and it attaches an identity
exactly when decoding succeeds. -/
theorem currentUser_never_rejects (s : Option Jwt) :
    (∃ r, currentUser s = .ok r) ∧
    (s = none → currentUser s = .ok none) ∧
    (∀ t e, s = some t → decryptSession t = .error e → currentUser s = .ok none) ∧
    (∀ t id, s = some t → decryptSession t = .ok id → currentUser s = .ok (some ⟨id⟩)) := by
  refine ⟨?_, ?_, ?_, ?_⟩
  · cases s with
    | none => exact ⟨none, rfl⟩
    | some t =>
        cases h : decryptSession t with
        | ok id => exact ⟨some ⟨id⟩, by simp [currentUser, h]⟩
        | error e => exact ⟨none, by simp [currentUser, h]⟩
  · rintro rfl; rfl
  · rintro t e rfl h; simp [currentUser, h]
  · rintro t id rfl h; simp [currentUser, h]

/-- Witness for C3: a tampered token decodes to an error, and the resolver
still proceeds with no identity. -/
theorem currentUser_never_rejects_witness :
    currentUser (some (Jwt.malformed "tampered")) = .ok none :=
  (currentUser_never_rejects (some (Jwt.malformed "tampered"))).2.2.1
    (Jwt.malformed "tampered")
    (.parametric [⟨"user", "User not found.", "RESOURCE_NOT_FOUND"⟩])
    rfl rfl

/-- C4 counterexample: on a malformed token, `decryptSession` raises a
`ParametricError` — a field-scoped error whose serialization carries
`param = "user"` — not a general error without a `param` field. -/
theorem decryptSession_failure_carries_param :
    decryptSession (Jwt.malformed "forged") =
      .error (.parametric [⟨"user", "User not found.", "RESOURCE_NOT_FOUND"⟩]) ∧
    serializeErrors
        (.parametric [⟨"user", "User not found.", "RESOURCE_NOT_FOUND"⟩]) =
      [⟨some "user", "User not found.", "RESOURCE_NOT_FOUND"⟩] :=
  ⟨rfl, rfl⟩

/-- C4 amended: for every token on which decode fails, `decryptSession` raises a
field-scoped (parametric) error with `param = "user"`, code `RESOURCE_NOT_FOUND`
and message "User not found.", whose serialization carries `param = some
"user"`. -/
theorem decryptSession_failure_parametric (t : Jwt)
    (h : jwtVerify t JWT_SECRET = .error ()) :
    decryptSession t =
      .error (.parametric [⟨"user", "User not found.", "RESOURCE_NOT_FOUND"⟩]) ∧
    serializeErrors
        (.parametric [⟨"user", "User not found.", "RESOURCE_NOT_FOUND"⟩]) =
      [⟨some "user", "User not found.", "RESOURCE_NOT_FOUND"⟩] := by
  refine ⟨?_, rfl⟩
  unfold decryptSession
  rw [h]

/-- Witness for the amended C4: the concrete malformed token `"x"` fails
verification and decodes to the field-scoped `RESOURCE_NOT_FOUND` error. -/
theorem decryptSession_failure_parametric_witness :
    decryptSession (Jwt.malformed "x") =
      .error (.parametric [⟨"user", "User not found.", "RESOURCE_NOT_FOUND"⟩]) ∧
    serializeErrors
        (.parametric [⟨"user", "User not found.", "RESOURCE_NOT_FOUND"⟩]) =
      [⟨some "user", "User not found.", "RESOURCE_NOT_FOUND"⟩] :=
  decryptSession_failure_parametric (Jwt.malformed "x") rfl

/-- A row returned by `findUser` has the looked-up id. -/
theorem findUser_id {st : Store} {k : String} {u : UserRow}
    (h : findUser st k = some u) : u.id = k := by
  have h' : st.users.find? (fun x => x.id = k) = some u := h
  simpa using List.find?_some h'

/-- The owner gate rejects a caller who is not the community's owner with the
`NOT_ALLOWED_ACCESS` general error (given that the community's owner row is
present, as the one-owner-per-community invariant guarantees). -/
theorem isCommunityAdmin_not_owner {st : Store} {callerId community : String}
    {comm : CommunityRow}
    (hc : findCommunity st community = some comm)
    (howner : (findUser st comm.ownerId).isSome)
    (hne : callerId ≠ comm.ownerId) :
    isCommunityAdmin st callerId community =
      .error (.nonParametric
        [⟨"You are not authorized to perform this action.", "NOT_ALLOWED_ACCESS"⟩]) := by
  obtain ⟨owner, ho⟩ := Option.isSome_iff_exists.mp howner
  have hoid : owner.id = comm.ownerId := findUser_id ho
  cases hu : findUser st callerId with
  | none => unfold isCommunityAdmin; rw [hu]; rfl
  | some u =>
      simp only [isCommunityAdmin, getOwner, hu, hc, ho, hoid,
        ne_eq, Ne.symm hne, not_false_eq_true, if_true]
      rfl

/-- The owner gate lets the community's owner through. -/
theorem isCommunityAdmin_owner {st : Store} {callerId community : String}
    {comm : CommunityRow}
    (hu : (findUser st callerId).isSome)
    (hc : findCommunity st community = some comm)
    (hown : comm.ownerId = callerId) :
    isCommunityAdmin st callerId community = .ok () := by
  obtain ⟨u, hu'⟩ := Option.isSome_iff_exists.mp hu
  have howner : findUser st comm.ownerId = some u := by rw [hown]; exact hu'
  simp only [isCommunityAdmin, getOwner, hu', hc, howner, findUser_id hu',
    ne_eq, not_true_eq_false, if_false]
  rfl

/-- C1: For every `POST /member` request whose caller is authenticated and whose
body names an existing community, if the caller's id differs from the community
owner's id, the request is rejected with the `NOT_ALLOWED_ACCESS` general error
and the datastore is unchanged (no `Member` row is created). -/
theorem postMember_non_owner_rejected (st : Store) (uid : UserPayload)
    (body : AddMemberBody) (newId now : String) (comm : CommunityRow)
    (hc : findCommunity st body.community = some comm)
    (howner : (findUser st comm.ownerId).isSome)
    (hne : uid.id ≠ comm.ownerId) :
    postMember st (some uid) body newId now =
      .error (.nonParametric
        [⟨"You are not authorized to perform this action.", "NOT_ALLOWED_ACCESS"⟩]) ∧
    postMemberStore st (some uid) body newId now = st := by
  have hgate := isCommunityAdmin_not_owner hc howner hne
  have hmain : postMember st (some uid) body newId now =
      .error (.nonParametric
        [⟨"You are not authorized to perform this action.", "NOT_ALLOWED_ACCESS"⟩]) := by
    simp [postMember, isLoggedIn, hgate, Bind.bind, Except.bind]
  exact ⟨hmain, by simp [postMemberStore, hmain]⟩

/-- Witness for C1: a concrete store with owner `"O"` and community `"C"`; the
authenticated non-owner `"M"` is rejected and the store is untouched. -/
theorem postMember_non_owner_rejected_witness :
    postMember
        ⟨[⟨"O", "Owner", "o@x", "h", "t"⟩, ⟨"M", "Mallory", "m@x", "h", "t"⟩],
          [⟨"R", "Role", "t", "t"⟩],
          [⟨"C", "Comm", "comm", "O", "t", "t"⟩], []⟩
        (some ⟨"M"⟩) ⟨"C", "M", "R"⟩ "id1" "t1" =
      .error (.nonParametric
        [⟨"You are not authorized to perform this action.", "NOT_ALLOWED_ACCESS"⟩]) ∧
    postMemberStore
        ⟨[⟨"O", "Owner", "o@x", "h", "t"⟩, ⟨"M", "Mallory", "m@x", "h", "t"⟩],
          [⟨"R", "Role", "t", "t"⟩],
          [⟨"C", "Comm", "comm", "O", "t", "t"⟩], []⟩
        (some ⟨"M"⟩) ⟨"C", "M", "R"⟩ "id1" "t1" =
      ⟨[⟨"O", "Owner", "o@x", "h", "t"⟩, ⟨"M", "Mallory", "m@x", "h", "t"⟩],
        [⟨"R", "Role", "t", "t"⟩],
        [⟨"C", "Comm", "comm", "O", "t", "t"⟩], []⟩ :=
  postMember_non_owner_rejected
    ⟨[⟨"O", "Owner", "o@x", "h", "t"⟩, ⟨"M", "Mallory", "m@x", "h", "t"⟩],
      [⟨"R", "Role", "t", "t"⟩],
      [⟨"C", "Comm", "comm", "O", "t", "t"⟩], []⟩
    ⟨"M"⟩ ⟨"C", "M", "R"⟩ "id1" "t1" ⟨"C", "Comm", "comm", "O", "t", "t"⟩
    (by decide) (by decide) (by decide)

/-- C6: Two successive add-member calls with the same (user, community, role)
triple, passing the owner gate and with the role and user rows existing: the
first creates exactly one `Member` row and returns it with status 200; the
second raises the `RESOURCE_EXISTS` general error and creates no row, so the
count of `Member` rows matching the triple remains 1. -/
theorem postMember_duplicate_triple (st : Store) (owner : UserPayload)
    (body : AddMemberBody) (id1 id2 now1 now2 : String) (comm : CommunityRow)
    (hu : (findUser st owner.id).isSome)
    (hc : findCommunity st body.community = some comm)
    (hown : comm.ownerId = owner.id)
    (hrole : (findRole st body.role).isSome)
    (huser : (findUser st body.user).isSome)
    (hfresh : findMemberTriple st body.user body.community body.role = none) :
    ∃ st1,
      postMember st (some owner) body id1 now1 =
        .ok (st1, ⟨200, true, ⟨id1, body.community, body.user, body.role, now1⟩⟩) ∧
      st1.members = st.members ++ [⟨id1, body.community, body.user, body.role, now1⟩] ∧
      countMemberTriple st1 body.user body.community body.role = 1 ∧
      postMember st1 (some owner) body id2 now2 =
        .error (.nonParametric
          [⟨"User is already added in the community.", "RESOURCE_EXISTS"⟩]) ∧
      postMemberStore st1 (some owner) body id2 now2 = st1 := by
  obtain ⟨r, hr⟩ := Option.isSome_iff_exists.mp hrole
  obtain ⟨uu, huu⟩ := Option.isSome_iff_exists.mp huser
  have hgate : isCommunityAdmin st owner.id body.community = .ok () :=
    isCommunityAdmin_owner hu hc hown
  refine ⟨{ st with members :=
      st.members ++ [⟨id1, body.community, body.user, body.role, now1⟩] },
    ?_, rfl, ?_, ?_, ?_⟩
  · simp [postMember, isLoggedIn, hgate, Bind.bind, Except.bind, addMember,
      hr, huu, hfresh]
    rfl
  · have hnil : st.members.filter
        (fun m => decide (m.userId = body.user ∧ m.communityId = body.community ∧
          m.roleId = body.role)) = [] := by
      rw [List.filter_eq_nil_iff]
      intro m hm
      simpa using List.find?_eq_none.mp hfresh m hm
    show (List.filter
        (fun m => decide (m.userId = body.user ∧ m.communityId = body.community ∧
          m.roleId = body.role))
        (st.members ++ [⟨id1, body.community, body.user, body.role, now1⟩])).length = 1
    rw [List.filter_append, hnil]
    simp
  · have hgate1 : isCommunityAdmin
        { st with members :=
          st.members ++ [⟨id1, body.community, body.user, body.role, now1⟩] }
        owner.id body.community = .ok () :=
      isCommunityAdmin_owner
        (show (findUser { st with members :=
          st.members ++ [⟨id1, body.community, body.user, body.role, now1⟩] }
          owner.id).isSome from hu)
        (show findCommunity { st with members :=
          st.members ++ [⟨id1, body.community, body.user, body.role, now1⟩] }
          body.community = some comm from hc) hown
    have hdup : findMemberTriple
        { st with members :=
          st.members ++ [⟨id1, body.community, body.user, body.role, now1⟩] }
        body.user body.community body.role =
        some ⟨id1, body.community, body.user, body.role, now1⟩ := by
      unfold findMemberTriple
      rw [show ({ st with members :=
          st.members ++ [⟨id1, body.community, body.user, body.role, now1⟩] } :
        Store).members =
          st.members ++ [⟨id1, body.community, body.user, body.role, now1⟩] from rfl]
      rw [List.find?_append, show st.members.find?
        (fun m => decide (m.userId = body.user ∧ m.communityId = body.community ∧
          m.roleId = body.role)) = none from hfresh]
      simp
    simp [postMember, isLoggedIn, hgate1, Bind.bind, Except.bind, addMember,
      show findRole { st with members :=
        st.members ++ [⟨id1, body.community, body.user, body.role, now1⟩] }
        body.role = some r from hr,
      show findUser { st with members :=
        st.members ++ [⟨id1, body.community, body.user, body.role, now1⟩] }
        body.user = some uu from huu,
      hdup]
    rfl
  · have hgate1 : isCommunityAdmin
        { st with members :=
          st.members ++ [⟨id1, body.community, body.user, body.role, now1⟩] }
        owner.id body.community = .ok () :=
      isCommunityAdmin_owner
        (show (findUser { st with members :=
          st.members ++ [⟨id1, body.community, body.user, body.role, now1⟩] }
          owner.id).isSome from hu)
        (show findCommunity { st with members :=
          st.members ++ [⟨id1, body.community, body.user, body.role, now1⟩] }
          body.community = some comm from hc) hown
    have hdup : findMemberTriple
        { st with members :=
          st.members ++ [⟨id1, body.community, body.user, body.role, now1⟩] }
        body.user body.community body.role =
        some ⟨id1, body.community, body.user, body.role, now1⟩ := by
      unfold findMemberTriple
      rw [show ({ st with members :=
          st.members ++ [⟨id1, body.community, body.user, body.role, now1⟩] } :
        Store).members =
          st.members ++ [⟨id1, body.community, body.user, body.role, now1⟩] from rfl]
      rw [List.find?_append, show st.members.find?
        (fun m => decide (m.userId = body.user ∧ m.communityId = body.community ∧
          m.roleId = body.role)) = none from hfresh]
      simp
    simp [postMemberStore, postMember, isLoggedIn, hgate1, Bind.bind, Except.bind,
      addMember,
      show findRole { st with members :=
        st.members ++ [⟨id1, body.community, body.user, body.role, now1⟩] }
        body.role = some r from hr,
      show findUser { st with members :=
        st.members ++ [⟨id1, body.community, body.user, body.role, now1⟩] }
        body.user = some uu from huu,
      hdup]

/-- Witness for C6: a concrete store with owner `"O"` of community `"C"`, user
`"U"` and role `"R"`; the first add succeeds with one matching row, the second
is rejected with `RESOURCE_EXISTS` and the row count stays 1. -/
theorem postMember_duplicate_triple_witness :
    ∃ st1,
      postMember
          ⟨[⟨"O", "Owner", "o@x", "h", "t"⟩, ⟨"U", "User", "u@x", "h", "t"⟩],
            [⟨"R", "Role", "t", "t"⟩],
            [⟨"C", "Comm", "comm", "O", "t", "t"⟩], []⟩
          (some ⟨"O"⟩) ⟨"C", "U", "R"⟩ "id1" "t1" =
        .ok (st1, ⟨200, true, ⟨"id1", "C", "U", "R", "t1"⟩⟩) ∧
      st1.members = [] ++ [⟨"id1", "C", "U", "R", "t1"⟩] ∧
      countMemberTriple st1 "U" "C" "R" = 1 ∧
      postMember st1 (some ⟨"O"⟩) ⟨"C", "U", "R"⟩ "id2" "t2" =
        .error (.nonParametric
          [⟨"User is already added in the community.", "RESOURCE_EXISTS"⟩]) ∧
      postMemberStore st1 (some ⟨"O"⟩) ⟨"C", "U", "R"⟩ "id2" "t2" = st1 :=
  postMember_duplicate_triple
    ⟨[⟨"O", "Owner", "o@x", "h", "t"⟩, ⟨"U", "User", "u@x", "h", "t"⟩],
      [⟨"R", "Role", "t", "t"⟩],
      [⟨"C", "Comm", "comm", "O", "t", "t"⟩], []⟩
    ⟨"O"⟩ ⟨"C", "U", "R"⟩ "id1" "id2" "t1" "t2" ⟨"C", "Comm", "comm", "O", "t", "t"⟩
    (by decide) (by decide) (by decide) (by decide) (by decide) (by decide)

/-- C2 (the code evaluated at the failing input): a concrete store in which
community `"C"` is owned by `"O"` and user `"M"` holds a `Member` row with the
role named "Community Moderator" for `"C"`.  The membership row is present
(first conjunct), yet the gate rejects the authenticated caller `"M"`: its
membership query passes `community.id` — `undefined`, `community` being the
body string — as the `communityId`, so the query layer rejects the clause and
the gate forwards the error instead of calling `next`. -/
theorem isCommunityModerator_rejects_moderator :
    findMemberTriple
        ⟨[⟨"O", "Owner", "o@x", "h", "t"⟩, ⟨"M", "Mona", "m@x", "h", "t"⟩],
          [⟨"R", "Community Moderator", "t", "t"⟩],
          [⟨"C", "Comm", "comm", "O", "t", "t"⟩],
          [⟨"MB", "C", "M", "R", "t"⟩]⟩ "M" "C" "R" =
      some ⟨"MB", "C", "M", "R", "t"⟩ ∧
    isCommunityModerator
        ⟨[⟨"O", "Owner", "o@x", "h", "t"⟩, ⟨"M", "Mona", "m@x", "h", "t"⟩],
          [⟨"R", "Community Moderator", "t", "t"⟩],
          [⟨"C", "Comm", "comm", "O", "t", "t"⟩],
          [⟨"MB", "C", "M", "R", "t"⟩]⟩ "M" "C" =
      .error (.queryError "WHERE parameter communityId has invalid undefined value") := by
  constructor <;> rfl

/-- `Math.ceil(m / 10)` on a natural numerator equals `(m + 9) / 10` in natural
division. -/
theorem ceil_div_ten (m : ℕ) : Nat.ceil ((m : ℚ) / 10) = (m + 9) / 10 := by
  apply le_antisymm
  · apply Nat.ceil_le.mpr
    rw [div_le_iff₀ (by norm_num)]
    have h1 : m ≤ ((m + 9) / 10) * 10 := by omega
    exact_mod_cast h1
  · have h2 : (m : ℚ) / 10 ≤ (Nat.ceil ((m : ℚ) / 10) : ℚ) := Nat.le_ceil _
    rw [div_le_iff₀ (by norm_num)] at h2
    have h3 : m ≤ Nat.ceil ((m : ℚ) / 10) * 10 := by exact_mod_cast h2
    omega

/-- C8: every role-listing response carries `meta.total` equal to the number of
persisted roles, `meta.pages = ceil(total/10)`, `meta.page ≥ 1` (the requested
page clamped to at least 1, defaulting to 1 when absent or non-numeric), and a
`data` array of length at most 10. -/
theorem getAllRole_pagination (st : Store) (p : PageParam) :
    (getAllRole st p).meta.total = st.roles.length ∧
    (getAllRole st p).meta.pages = Nat.ceil ((st.roles.length : ℚ) / 10) ∧
    1 ≤ (getAllRole st p).meta.page ∧
    ((p = .absent ∨ p = .nonNumeric) → (getAllRole st p).meta.page = 1) ∧
    (∀ n, p = .num n → (getAllRole st p).meta.page = max 1 n) ∧
    (getAllRole st p).data.length ≤ 10 := by
  refine ⟨rfl, (ceil_div_ten st.roles.length).symm, ?_, ?_, ?_, ?_⟩
  · simp only [getAllRole]
    split <;> omega
  · rintro (rfl | rfl) <;> rfl
  · rintro n rfl
    simp only [getAllRole, resolvePage]
    split <;> split <;> omega
  · simp only [getAllRole]
    simp [List.length_take]

/-- Witness for C8: on a store with one role and the negative page request
`-3`, the response's `meta.page` is clamped to `max 1 (-3) = 1`. -/
theorem getAllRole_pagination_witness :
    (getAllRole ⟨[], [⟨"R1", "Role", "t", "t"⟩], [], []⟩ (.num (-3))).meta.page =
      max 1 (-3) :=
  (getAllRole_pagination ⟨[], [⟨"R1", "Role", "t", "t"⟩], [], []⟩
    (.num (-3))).2.2.2.2.1 (-3) rfl

/-- JavaScript assignment of a fresh-or-existing key commutes with a cons whose
head has a different key. -/
theorem setKey_cons_ne (a : String × String) (t : List (String × String))
    (k v : String) (h : a.1 ≠ k) : setKey (a :: t) k v = a :: setKey t k v := by
  by_cases ht : t.any (fun kv => kv.1 = k)
  · have : (a :: t).any (fun kv => kv.1 = k) = true := by simp [List.any_cons, ht]
    simp [setKey, this, ht, h]
  · have hta : t.any (fun kv => kv.1 = k) = false := Bool.eq_false_iff.mpr ht
    have : (a :: t).any (fun kv => kv.1 = k) = false := by
      simp [List.any_cons, h, hta]
    simp [setKey, this, hta]

/-- After `obj[k] = v`, looking up `k` yields `v`. -/
theorem lookup_setKey_self (l : List (String × String)) (k v : String) :
    (setKey l k v).lookup k = some v := by
  induction l with
  | nil => simp [setKey, List.lookup]
  | cons a t ih =>
      by_cases hk : a.1 = k
      · have hany : (a :: t).any (fun kv => kv.1 = k) = true := by
          simp [List.any_cons, hk]
        simp [setKey, hany, hk, List.lookup]
      · rw [setKey_cons_ne a t k v hk]
        have : (k == a.1) = false := by
          simp [beq_eq_false_iff_ne]
          exact fun hc => hk hc.symm
        simpa [List.lookup, this] using ih

/-- C10: every field error in the batch raised by the declarative request
validator carries code `INVALID_INPUT`, regardless of which rule failed: the
key-renaming step unconditionally overwrites the `code` of each surviving
validation error with the constant. -/
theorem validateRequest_code_invalid_input (errs : List (List (String × String)))
    (e : List (String × String)) (he : e ∈ validateRequestErrors errs) :
    e.lookup "code" = some "INVALID_INPUT" := by
  obtain ⟨err, _, rfl⟩ := List.mem_map.mp he
  exact lookup_setKey_self _ "code" "INVALID_INPUT"

/-- Witness for C10: the concrete minimum-length violation on `name` surfaces
with code `INVALID_INPUT`. -/
theorem validateRequest_code_invalid_input_witness :
    (renameKeys [("type", "field"),
        ("msg", "Name must be at least 2 characters long."),
        ("path", "name"), ("location", "body")]).lookup "code" =
      some "INVALID_INPUT" :=
  validateRequest_code_invalid_input
    [[("type", "field"), ("msg", "Name must be at least 2 characters long."),
      ("path", "name"), ("location", "body")]]
    (renameKeys [("type", "field"),
      ("msg", "Name must be at least 2 characters long."),
      ("path", "name"), ("location", "body")])
    (by
      rw [show validateRequestErrors
          [[("type", "field"), ("msg", "Name must be at least 2 characters long."),
            ("path", "name"), ("location", "body")]] =
          [renameKeys [("type", "field"),
            ("msg", "Name must be at least 2 characters long."),
            ("path", "name"), ("location", "body")]] from rfl]
      exact List.mem_singleton.mpr rfl)

/-- C9: no success response of sign up, sign in or get-current-user serializes
the password or its hash: the serialized user object's keys are exactly `id`,
`name`, `email`, `created_at` (plus the `access_token` metadata where issued),
so in particular no `password` key appears. -/
theorem user_responses_shape (st : Store) :
    (∀ name email password newId now hashed st1 r,
        signupUser st name email password newId now hashed = .ok (st1, r) →
        r.data.map Prod.fst = ["id", "name", "email", "created_at"] ∧
        "password" ∉ r.data.map Prod.fst) ∧
    (∀ email password r, signinUser st email password = .ok r →
        r.data.map Prod.fst = ["id", "name", "email", "created_at"] ∧
        "password" ∉ r.data.map Prod.fst) ∧
    (∀ caller r, getMe st caller = .ok r →
        r.data.map Prod.fst = ["id", "name", "email", "created_at"] ∧
        "password" ∉ r.data.map Prod.fst) := by
  refine ⟨?_, ?_, ?_⟩
  · intro name email password newId now hashed st1 r h
    cases he : findUserByEmail st email with
    | some u => simp [signupUser, he] at h
    | none =>
        simp [signupUser, he, pure, Except.pure] at h
        obtain ⟨-, rfl⟩ := h
        exact ⟨rfl, by simp [userDataJson]⟩
  · intro email password r h
    cases he : findUserByEmail st email with
    | none => simp [signinUser, he] at h
    | some u =>
        by_cases hcp : comparePasswords password u.password
        · simp [signinUser, he, hcp, pure, Except.pure] at h
          subst h
          exact ⟨rfl, by simp [userDataJson]⟩
        · simp [signinUser, he, hcp] at h
  · intro caller r h
    cases caller with
    | none => simp [getMe] at h
    | some payload =>
        cases hfu : findUser st payload.id with
        | none => simp [getMe, hfu] at h
        | some u =>
            simp [getMe, hfu, pure, Except.pure] at h
            subst h
            exact ⟨rfl, by simp [userDataJson]⟩

/-- Witness for C9: a concrete successful sign-up on the empty store yields a
response whose serialized data keys are exactly id, name, email, created_at. -/
theorem user_responses_shape_witness :
    (⟨200, true, userDataJson ⟨"U1", "Ada", "a@x", "hash", "t"⟩,
        some (encryptSession "U1")⟩ : UserResponse).data.map Prod.fst =
      ["id", "name", "email", "created_at"] ∧
    "password" ∉ (⟨200, true, userDataJson ⟨"U1", "Ada", "a@x", "hash", "t"⟩,
        some (encryptSession "U1")⟩ : UserResponse).data.map Prod.fst :=
  (user_responses_shape ⟨[], [], [], []⟩).1 "Ada" "a@x" "pw" "U1" "t" "hash"
    ⟨[⟨"U1", "Ada", "a@x", "hash", "t"⟩], [], [], []⟩
    ⟨200, true, userDataJson ⟨"U1", "Ada", "a@x", "hash", "t"⟩,
      some (encryptSession "U1")⟩
    rfl

/-- Every character of a collapsed list is the separator or a non-matching
character of the input. -/
theorem collapseRunsAux_mem (p : Char → Bool) (l : List Char) :
    ∀ inRun c, c ∈ collapseRunsAux p inRun l →
      c = '-' ∨ (p c = false ∧ c ∈ l) := by
  induction l with
  | nil => intro inRun c hc; simp [collapseRunsAux] at hc
  | cons a t ih =>
      intro inRun c hc
      cases hp : p a with
      | true =>
          cases inRun with
          | true =>
              simp only [collapseRunsAux, hp, if_true] at hc
              rcases ih true c hc with h | ⟨h1, h2⟩
              · exact Or.inl h
              · exact Or.inr ⟨h1, List.mem_cons_of_mem a h2⟩
          | false =>
              simp only [collapseRunsAux, hp, if_true] at hc
              rcases List.mem_cons.mp hc with h | h
              · exact Or.inl h
              · rcases ih true c h with h' | ⟨h1, h2⟩
                · exact Or.inl h'
                · exact Or.inr ⟨h1, List.mem_cons_of_mem a h2⟩
      | false =>
          simp only [collapseRunsAux, hp, Bool.false_eq_true, if_false] at hc
          rcases List.mem_cons.mp hc with h | h
          · subst h; exact Or.inr ⟨hp, List.mem_cons_self c t⟩
          · rcases ih false c h with h' | ⟨h1, h2⟩
            · exact Or.inl h'
            · exact Or.inr ⟨h1, List.mem_cons_of_mem a h2⟩

/-- Inside a run, the next emitted character never matches `p`. -/
theorem collapseRunsAux_true_head (p : Char → Bool) (l : List Char) :
    ∀ c, (collapseRunsAux p true l).head? = some c → p c = false := by
  induction l with
  | nil => intro c hc; simp [collapseRunsAux] at hc
  | cons a t ih =>
      intro c hc
      cases hp : p a with
      | true =>
          simp only [collapseRunsAux, hp, if_true] at hc
          exact ih c hc
      | false =>
          simp only [collapseRunsAux, hp, Bool.false_eq_true, if_false,
            List.head?_cons, Option.some.injEq] at hc
          subst hc; exact hp

/-- `noDoubleSep` is preserved by consing a character that does not form a
double separator with the head. -/
theorem noDoubleSep_cons (c : Char) (l : List Char)
    (h : noDoubleSep l = true)
    (hc : ∀ d, l.head? = some d → ¬(c = '-' ∧ d = '-')) :
    noDoubleSep (c :: l) = true := by
  cases l with
  | nil => rfl
  | cons d rest =>
      have hd := hc d rfl
      simp only [noDoubleSep, h, Bool.and_true]
      by_cases h1 : c = '-'
      · have h2 : d ≠ '-' := fun h2 => hd ⟨h1, h2⟩
        simp [h1, h2]
      · simp [h1]

/-- When the separator itself matches `p`, collapsing never produces two
consecutive separators. -/
theorem noDoubleSep_collapseRunsAux (p : Char → Bool) (hp : p '-' = true)
    (l : List Char) : ∀ inRun, noDoubleSep (collapseRunsAux p inRun l) = true := by
  induction l with
  | nil => intro inRun; rfl
  | cons a t ih =>
      intro inRun
      cases hpa : p a with
      | false =>
          simp only [collapseRunsAux, hpa, Bool.false_eq_true, if_false]
          apply noDoubleSep_cons a _ (ih false)
          intro d _ hcon
          rw [hcon.1] at hpa
          rw [hp] at hpa
          exact Bool.true_eq_false.mp hpa
      | true =>
          cases inRun with
          | true =>
              simp only [collapseRunsAux, hpa, if_true]
              exact ih true
          | false =>
              simp only [collapseRunsAux, hpa, if_true]
              apply noDoubleSep_cons '-' _ (ih true)
              intro d hd hcon
              have := collapseRunsAux_true_head p t d hd
              rw [hcon.2] at this
              rw [hp] at this
              exact Bool.true_eq_false.mp this

/-- C7 counterexample: the name `"ab_cd"` passes create-community validation
(a string of length ≥ 2), but the stored slug is `"ab_cd"`: the underscore — a
non-alphanumeric character other than the separator — survives, whereas the
claimed collapse of every non-alphanumeric run would give `"ab-cd"`. -/
theorem createCommunity_slug_counterexample :
    2 ≤ ("ab_cd".data).length ∧
    createCommunity ⟨[⟨"O", "Owner", "o@x", "h", "t"⟩], [], [], []⟩ "O"
        "ab_cd".data "C1" "R1" "M1" "tt" =
      .ok (⟨[⟨"O", "Owner", "o@x", "h", "t"⟩],
            [⟨"R1", "Community Admin", "tt", "tt"⟩],
            [⟨"C1", "ab_cd", "ab_cd", "O", "tt", "tt"⟩],
            [⟨"M1", "C1", "O", "R1", "tt"⟩]⟩,
        ⟨"C1", "ab_cd", "ab_cd", "O", "tt", "tt"⟩) ∧
    String.mk (specSlug "ab_cd".data) = "ab-cd" ∧
    ("ab_cd" : String) ≠ "ab-cd" := by
  refine ⟨by decide, rfl, by decide, by decide⟩

/-- C7 amended: for every name accepted by create-community validation, the
stored slug is the name lowercased with every run of characters that are
whitespace, hyphens or otherwise non-word (anything but ASCII letters, digits
and underscore) collapsed to a single `'-'`; consequently no two consecutive
separators appear, but underscores (non-alphanumeric) survive unchanged. -/
theorem createCommunity_slug_amended (st : Store) (callerId : String)
    (name : List Char) (newId newRoleId newMemberId now : String)
    (hcaller : (findUser st callerId).isSome) (_hname : 2 ≤ name.length) :
    ∃ st' d,
      createCommunity st callerId name newId newRoleId newMemberId now =
        .ok (st', d) ∧
      st'.communities = st.communities ++
        [⟨newId, String.mk name, String.mk (slugOf name), callerId, now, now⟩] ∧
      d.slug = String.mk (slugOf name) ∧
      noDoubleSep (slugOf name) = true ∧
      (∀ c ∈ slugOf name, c = '-' ∨ (jsNonWord c = false ∧ c ∈ name.map Char.toLower)) := by
  obtain ⟨u, hu⟩ := Option.isSome_iff_exists.mp hcaller
  have hnds : noDoubleSep (slugOf name) = true :=
    noDoubleSep_collapseRunsAux jsNonWord (by decide) (name.map Char.toLower) false
  have hmem : ∀ c ∈ slugOf name,
      c = '-' ∨ (jsNonWord c = false ∧ c ∈ name.map Char.toLower) :=
    fun c hc => collapseRunsAux_mem jsNonWord (name.map Char.toLower) false c hc
  cases hrole : findRoleByName
      { st with communities := st.communities ++
        [⟨newId, String.mk name, String.mk (slugOf name), callerId, now, now⟩] }
      "Community Admin" with
  | none =>
      refine ⟨⟨st.users, st.roles ++ [⟨newRoleId, "Community Admin", now, now⟩],
        st.communities ++
          [⟨newId, String.mk name, String.mk (slugOf name), callerId, now, now⟩],
        st.members ++ [⟨newMemberId, newId, callerId, newRoleId, now⟩]⟩,
        ⟨newId, String.mk name, String.mk (slugOf name), callerId, now, now⟩,
        ?_, rfl, rfl, hnds, hmem⟩
      simp [createCommunity, hu, hrole]
      rfl
  | some r =>
      refine ⟨⟨st.users, st.roles,
        st.communities ++
          [⟨newId, String.mk name, String.mk (slugOf name), callerId, now, now⟩],
        st.members ++ [⟨newMemberId, newId, callerId, r.id, now⟩]⟩,
        ⟨newId, String.mk name, String.mk (slugOf name), callerId, now, now⟩,
        ?_, rfl, rfl, hnds, hmem⟩
      simp [createCommunity, hu, hrole]
      rfl

/-- Witness for the amended C7: the valid two-character name `"a b"` on a
concrete store; the derived slug is `"a-b"`. -/
theorem createCommunity_slug_amended_witness :
    ∃ st' d,
      createCommunity ⟨[⟨"O", "Owner", "o@x", "h", "t"⟩], [], [], []⟩ "O"
          "a b".data "C1" "R1" "M1" "tt" = .ok (st', d) ∧
      st'.communities = ([] : List CommunityRow) ++
        [⟨"C1", String.mk "a b".data, String.mk (slugOf "a b".data), "O", "tt", "tt"⟩] ∧
      d.slug = String.mk (slugOf "a b".data) ∧
      noDoubleSep (slugOf "a b".data) = true ∧
      (∀ c ∈ slugOf "a b".data,
        c = '-' ∨ (jsNonWord c = false ∧ c ∈ "a b".data.map Char.toLower)) :=
  createCommunity_slug_amended ⟨[⟨"O", "Owner", "o@x", "h", "t"⟩], [], [], []⟩
    "O" "a b".data "C1" "R1" "M1" "tt" (by decide) (by decide)

end Floks
